import Mathlib

set_option maxHeartbeats 1600000

/-!
Shallow embedding of the LionCombobox widget
(src/packages/combobox/src/LionCombobox.js).

JS strings are modelled as lists of characters; DOM attributes as
Option-valued fields (none meaning the attribute is absent); the mutable
widget state as a record that the event handlers and lifecycle callbacks
transform.  Handlers that can throw a TypeError return Except.
-/

namespace Lion

/-- A JS string, modelled as its list of characters. -/
abbrev Str := List Char

/-- Model of String.prototype.toLowerCase. -/
def toLowerL (s : Str) : Str := s.map Char.toLower

/-- "sub begins s": spec-side predicate for a case-sensitive textual begin. -/
def isPrefixL : Str → Str → Bool
  | [], _ => true
  | _ :: _, [] => false
  | a :: s, b :: t => a == b && isPrefixL s t

/-- "sub occurs somewhere in s": spec-side predicate for textual containment. -/
def isSubstringL : Str → Str → Bool
  | sub, [] => isPrefixL sub []
  | sub, c :: t => isPrefixL sub (c :: t) || isSubstringL sub t

/-- Position of the first occurrence of sub in s (none when absent);
    the core of String.prototype.indexOf. -/
def jsIndexOfNat (sub : Str) : Str → Option Nat
  | [] => if isPrefixL sub [] then some 0 else none
  | c :: t => if isPrefixL sub (c :: t) then some 0 else (jsIndexOfNat sub t).map (· + 1)

/-- Model of s.indexOf(sub): first index of sub in s, -1 when absent. -/
def jsIndexOf (s sub : Str) : Int :=
  match jsIndexOfNat sub s with
  | some n => (n : Int)
  | none => -1

/-- JS template interpolation of a nonnegative number. -/
def natStr (n : Nat) : Str := (Nat.repr n).data

/-- JS template interpolation of a boolean. -/
def boolStr (b : Bool) : Str := if b then "true".data else "false".data

def strNone : Str := "none".data
def strBoth : Str := "both".data
def strAll : Str := "all".data
def strEscape : Str := "Escape".data
def strEsc : Str := "Esc".data
def strEnter : Str := "Enter".data
def strTab : Str := "Tab".data
def strKeydown : Str := "keydown".data
def strKeyup : Str := "keyup".data
def strInput : Str := "input".data
def strClick : Str := "click".data
def strCombobox : Str := "combobox".data
def strListbox : Str := "listbox".data
def strFalse : Str := "false".data
def strDisplayNone : Str := "none".data
def strAutocompleteProp : Str := "autocomplete".data
def strDisabledProp : Str := "disabled".data
def strShouldAutoProp : Str := "shouldAutocompleteNextUpdate".data

/-- A slotted LionOption child as seen by LionCombobox: its choiceValue,
    its DOM state (innerHTML, style.display, disabled, id, active) and the
    aria attributes _handleAutocompletion manages on it. -/
structure OptionEl where
  id : Str
  choiceValue : Str
  innerHTML : Str
  originalInnerHTML : Option Str
  display : Str
  disabled : Bool
  active : Bool
  ariaPosinset : Option Str
  ariaSetsize : Option Str
deriving DecidableEq

/-- Core of filterOptionCondition (source lines 216-222), over raw strings:
    idx = choiceValue.toLowerCase().indexOf(curValue.toLowerCase());
    matchMode "all" asks idx > -1, any other matchMode asks idx === 0. -/
def filterCondStr (matchMode choiceValue curValue : Str) : Bool :=
  let idx := jsIndexOf (toLowerL choiceValue) (toLowerL curValue)
  if matchMode = strAll then decide (idx > -1) else decide (idx = 0)

/-- filterOptionCondition(option, curValue) (source lines 216-222). -/
def filterOptionCondition (matchMode : Str) (o : OptionEl) (curValue : Str) : Bool :=
  filterCondStr matchMode o.choiceValue curValue

/-- Model of innerHTML.replace(new RegExp(pattern, i-flag), bold-wrap) used by
    _onFilterMatch (source line 234): the first case-insensitive occurrence of
    pat in s is wrapped in a bold tag (faithful for pattern strings without
    regex metacharacters). -/
def wrapFirstMatchCI (s pat : Str) : Str :=
  match jsIndexOfNat (toLowerL pat) (toLowerL s) with
  | none => s
  | some i =>
      s.take i ++ ("<b>".data) ++ (s.drop i).take pat.length
        ++ ("</b>".data) ++ s.drop (i + pat.length)

/-- _onFilterMatch (source lines 231-237): remember the original innerHTML,
    highlight the matching string, and show the option. -/
def _onFilterMatch (o : OptionEl) (matchingString : Str) : OptionEl :=
  { o with originalInnerHTML := some o.innerHTML,
           innerHTML := wrapFirstMatchCI o.innerHTML matchingString,
           display := [] }

/-- _onFilterUnmatch (source lines 246-253): restore the original innerHTML
    when one was remembered (JS truthiness: a stored empty string is falsy),
    hide the option and disable it. -/
def _onFilterUnmatch (o : OptionEl) : OptionEl :=
  let o1 :=
    match o.originalInnerHTML with
    | some orig => if orig ≠ [] then { o with innerHTML := orig } else o
    | none => o
  { o1 with display := strDisplayNone, disabled := true }

/-- The widget state: the reactive properties of LionCombobox, the private
    fields of the class, the slotted option children, the textbox state and
    the DOM and aria attributes the class manages.  Fields of the collaborator
    base classes appear only insofar as this class reads or writes them. -/
structure ComboboxState where
  autocomplete : Str
  matchMode : Str
  disabled : Bool
  readOnly : Bool
  multipleChoice : Bool
  checkedIndex : Int
  activeIndex : Int
  opened : Bool
  blockListShow : Bool
  shouldAutocompleteNextUpdate : Bool
  formElements : List OptionEl
  inputValue : Str
  selectionStart : Nat
  selectionEnd : Nat
  cboxInputValue : Str
  prevCboxValueNonSelected : Str
  listboxId : Str
  labelId : Str
  selectionDisplayPresent : Bool
  selectionDisplayLinked : Bool
  comboboxNodePresent : Bool
  inputAriaAutocomplete : Option Str
  inputAriaControls : Option Str
  inputAriaLabelledby : Option Str
  inputAriaActivedescendant : Option Str
  hostAriaDisabled : Option Str
  comboboxRole : Option Str
  comboboxAriaHaspopup : Option Str
  comboboxAriaExpanded : Option Str
  comboboxAriaOwns : Option Str
  comboboxDisabledAttr : Option Str
  comboboxReadonlyAttr : Option Str
deriving DecidableEq

/-- Accumulator of the formElements.forEach loop of _handleAutocompletion:
    the processed options, the collected visibleOptions (as indices into
    formElements), the hasAutoFilled flag, and the textbox fields the loop
    may write. -/
structure AcAcc where
  processed : List OptionEl
  visible : List Nat
  hasAutoFilled : Bool
  inputValue : Str
  selectionStart : Nat
  selectionEnd : Nat
  activeIndex : Int
deriving DecidableEq

/-- One iteration of the forEach body of _handleAutocompletion
    (source lines 277-320, steps 1-5); ac, mm, cbox are this.autocomplete,
    this.matchMode and this.__cboxInputValue, cur and uac are curValue and
    userIsAddingChars.  Options are plain LionOptions: the default
    _onFilterUnmatch and _onFilterMatch of the class apply. -/
def acStep (ac mm cbox cur : Str) (uac : Bool) (acc : AcAcc) (idx : Nat)
    (o0 : OptionEl) : AcAcc :=
  let o1 := _onFilterUnmatch o0
  if cur = [] then
    { acc with processed := acc.processed ++ [o1], visible := acc.visible ++ [idx] }
  else
    let o2 := { o1 with disabled := true, ariaPosinset := none, ariaSetsize := none }
    let sh := filterOptionCondition mm o2 cur
    let o3 := if sh then _onFilterMatch o2 cur else o2
    let acc1 := { acc with processed := acc.processed ++ [o3],
                           visible := if sh then acc.visible ++ [idx] else acc.visible }
    let bw := jsIndexOf (toLowerL o3.choiceValue) (toLowerL cur) == 0
    if bw && !acc1.hasAutoFilled && sh && uac then
      let acc2 :=
        if ac = strBoth then
          { acc1 with inputValue := o3.choiceValue,
                      selectionStart := cbox.length,
                      selectionEnd := o3.choiceValue.length }
        else acc1
      { acc2 with activeIndex := (idx : Int), hasAutoFilled := true }
    else acc1

/-- forEach supplies each element with its index. -/
def enumFromN {α : Type} : Nat → List α → List (Nat × α)
  | _, [] => []
  | n, a :: t => (n, a) :: enumFromN (n + 1) t

/-- The formElements.forEach loop of _handleAutocompletion. -/
def acLoop (ac mm cbox cur : Str) (uac : Bool) : AcAcc → List (Nat × OptionEl) → AcAcc
  | acc, [] => acc
  | acc, (idx, o) :: rest =>
      acLoop ac mm cbox cur uac (acStep ac mm cbox cur uac acc idx o) rest

/-- In-place update of the element at an index (mutation of a pushed option). -/
def listModify : List OptionEl → Nat → (OptionEl → OptionEl) → List OptionEl
  | [], _, _ => []
  | a :: t, 0, f => f a :: t
  | a :: t, k + 1, f => a :: listModify t k f

/-- Step 6 of _handleAutocompletion (source lines 323-329) on one visible
    option of rank r in a visible set of size n. -/
def markVisible (n r : Nat) (o : OptionEl) : OptionEl :=
  { o with ariaPosinset := some (natStr (r + 1)),
           ariaSetsize := some (natStr n),
           disabled := false }

/-- The visibleOptions.forEach loop of step 6: pairs are (rank, index into
    the processed list). -/
def applyVisible (n : Nat) : List OptionEl → List (Nat × Nat) → List OptionEl
  | opts, [] => opts
  | opts, (r, idx) :: rest => applyVisible n (listModify opts idx (markVisible n r)) rest

/-- _handleAutocompletion (source lines 263-337).  The trailing popper
    update (lines 334-336) touches only the external overlay controller and
    has no modelled state. -/
def _handleAutocompletion (st : ComboboxState) (curValue prevValue : Str) : ComboboxState :=
  if st.autocomplete = strNone then st
  else
    let uac := decide (prevValue.length < curValue.length)
    let acc0 : AcAcc :=
      { processed := [], visible := [], hasAutoFilled := false,
        inputValue := st.inputValue, selectionStart := st.selectionStart,
        selectionEnd := st.selectionEnd, activeIndex := st.activeIndex }
    let acc := acLoop st.autocomplete st.matchMode st.cboxInputValue curValue uac acc0
      (enumFromN 0 st.formElements)
    let n := acc.visible.length
    let opts := applyVisible n acc.processed (enumFromN 0 acc.visible)
    { st with formElements := opts,
              inputValue := acc.inputValue,
              selectionStart := acc.selectionStart,
              selectionEnd := acc.selectionEnd,
              activeIndex := acc.activeIndex,
              prevCboxValueNonSelected := curValue.take acc.selectionStart }

/-- The per-option transformation of steps 1-4 of the loop, before step 6. -/
def preOpt (mm cur : Str) (o0 : OptionEl) : OptionEl :=
  let o1 := _onFilterUnmatch o0
  if cur = [] then o1
  else
    let o2 := { o1 with disabled := true, ariaPosinset := none, ariaSetsize := none }
    if filterOptionCondition mm o2 cur then _onFilterMatch o2 cur else o2

/-- An option is collected into visibleOptions iff the textbox is empty or
    the filter condition holds. -/
def isVisibleOpt (mm cur : Str) (o : OptionEl) : Bool :=
  decide (cur = []) || filterOptionCondition mm o cur

/-- The indices (counted from k) collected into visibleOptions by the loop. -/
def visIdx (mm cur : Str) : Nat → List OptionEl → List Nat
  | _, [] => []
  | k, o :: t =>
      if isVisibleOpt mm cur o then k :: visIdx mm cur (k + 1) t
      else visIdx mm cur (k + 1) t

/-- 0-based rank of the option at index i within the visible set. -/
def visRank (mm cur : Str) (l : List OptionEl) (i : Nat) : Nat :=
  (l.take i).countP (isVisibleOpt mm cur)

/-- Total number of visible options. -/
def visCount (mm cur : Str) (l : List OptionEl) : Nat :=
  l.countP (isVisibleOpt mm cur)

/-- An option that passes the visibility filter and whose choiceValue begins,
    case-insensitively, with the typed value (the autofill condition of
    step 5 of the loop). -/
def acCandidate (mm cur : Str) (o : OptionEl) : Bool :=
  filterOptionCondition mm o cur && isPrefixL (toLowerL cur) (toLowerL o.choiceValue)

/-- Field projections through Option, to state facts about list lookups. -/
def fieldDisabled (x : Option OptionEl) : Option Bool := x.map OptionEl.disabled

def fieldDisplay (x : Option OptionEl) : Option Str := x.map OptionEl.display

def fieldPosinset (x : Option OptionEl) : Option (Option Str) := x.map OptionEl.ariaPosinset

def fieldSetsize (x : Option OptionEl) : Option (Option Str) := x.map OptionEl.ariaSetsize

/-- connectedCallback (source lines 129-134): links the optional
    selection-display slot to the combobox when that slot is present,
    otherwise does nothing. -/
def connectedCallback (st : ComboboxState) : ComboboxState :=
  if st.selectionDisplayPresent then { st with selectionDisplayLinked := true } else st

/-- updated(changedProperties) (source lines 139-163).  changed is the set of
    changed property names; the selection-display notification at lines
    160-162 calls into the external slotted element and has no modelled
    state. -/
def updated (st : ComboboxState) (changed : List Str) : ComboboxState :=
  let st1 :=
    if strAutocompleteProp ∈ changed
    then { st with inputAriaAutocomplete := some st.autocomplete } else st
  let st2 :=
    if strDisabledProp ∈ changed
    then { st1 with hostAriaDisabled := some (boolStr st1.disabled) } else st1
  if strShouldAutoProp ∈ changed ∧ st2.shouldAutocompleteNextUpdate = true then
    let st3 := _handleAutocompletion st2 st2.cboxInputValue st2.prevCboxValueNonSelected
    { st3 with shouldAutocompleteNextUpdate := false }
  else st2

/-- __setupCombobox (source lines 165-177): aria wiring of the combobox
    wrapper and the input node.  The two addEventListener calls at lines
    175-176 are recorded in setupComboboxListeners below. -/
def __setupCombobox (st : ComboboxState) : ComboboxState :=
  { st with comboboxRole := some strCombobox,
            comboboxAriaHaspopup := some strListbox,
            comboboxAriaExpanded := some strFalse,
            comboboxAriaOwns := some st.listboxId,
            inputAriaAutocomplete := some st.autocomplete,
            inputAriaControls := some st.listboxId,
            inputAriaLabelledby := some st.labelId }

/-- _textboxOnInput (source lines 187-191): caches the typed value and
    schedules an autocompletion cycle for the next update. -/
def _textboxOnInput (st : ComboboxState) (targetValue : Str) : ComboboxState :=
  { st with cboxInputValue := targetValue, shouldAutocompleteNextUpdate := true }

/-- __setComboboxDisabledAndReadOnly (source lines 350-355): mirrors disabled
    and readOnly onto the combobox node when that node exists, otherwise does
    nothing. -/
def __setComboboxDisabledAndReadOnly (st : ComboboxState) : ComboboxState :=
  if st.comboboxNodePresent then
    { st with comboboxDisabledAttr := some (boolStr st.disabled),
              comboboxReadonlyAttr := some (boolStr st.readOnly) }
  else st

/-- JS array access arr[i] with an Int index: undefined (none) out of range. -/
def jsGetElem (l : List OptionEl) (i : Int) : Option OptionEl :=
  if 0 ≤ i then l.get? i.toNat else none

/-- __syncCheckedWithTextboxOnInteraction (source lines 490-495).  The value
    property of a LionOption resolves to its choiceValue (ChoiceInputMixin of
    the listbox package).  When no option is checked the listbox collaborator
    reports checkedIndex -1, formElements[-1] is undefined, and reading value
    of undefined throws a TypeError, modelled as Except.error. -/
def __syncCheckedWithTextboxOnInteraction (st : ComboboxState) : Except Unit ComboboxState :=
  if st.multipleChoice then Except.ok st
  else
    match jsGetElem st.formElements st.checkedIndex with
    | some o => Except.ok { st with inputValue := o.choiceValue, opened := false }
    | none => Except.error ()

/-- _listboxOnKeyDown (source lines 474-488), the parts this class adds; the
    super call performs listbox navigation in the external base class. -/
def _listboxOnKeyDown (st : ComboboxState) (key : Str) : Except Unit ComboboxState :=
  if key = strEscape then
    Except.ok { st with opened := false, shouldAutocompleteNextUpdate := true,
                        inputValue := [], cboxInputValue := [] }
  else if key = strEnter then __syncCheckedWithTextboxOnInteraction st
  else Except.ok st

/-- _listboxOnClick (source lines 196-200), the part this class adds after
    the super call: focus the input (no modelled state) and sync. -/
def _listboxOnClick (st : ComboboxState) : Except Unit ComboboxState :=
  __syncCheckedWithTextboxOnInteraction st

/-- __showOverlay (source lines 433-443), the keyup listener on the invoker:
    opens the listbox unless the key is Tab, Esc or Enter or list showing is
    blocked. -/
def __showOverlay (st : ComboboxState) (key : Str) : ComboboxState :=
  if key = strTab ∨ key = strEsc ∨ key = strEnter ∨ st.blockListShow = true then st
  else { st with opened := true }

/-- _onChildActiveChanged (source lines 464-469), the part this class adds:
    point aria-activedescendant of the input at the newly active option. -/
def _onChildActiveChanged (st : ComboboxState) (target : OptionEl) : ComboboxState :=
  if target.active then { st with inputAriaActivedescendant := some target.id } else st

/-- Listeners __setupCombobox registers on the input node
    (source lines 175-176): event type and handler. -/
def setupComboboxListeners : List (Str × Str) :=
  [(strKeydown, "listboxOnKeyDown".data), (strInput, "textboxOnInput".data)]

/-- Listener _setupOpenCloseListeners registers on the overlay invoker node
    (source line 450): event type and handler. -/
def setupOpenCloseListenersAdded : List (Str × Str) :=
  [(strKeyup, "showOverlay".data)]

/-- All DOM event types for which this class itself registers a handler. -/
def registeredEventTypes : List Str :=
  (setupComboboxListeners ++ setupOpenCloseListenersAdded).map (fun p => p.1)

/-- A freshly rendered option child. -/
def optApple : OptionEl :=
  { id := "opt-apple".data, choiceValue := "apple".data, innerHTML := "apple".data,
    originalInnerHTML := none, display := [], disabled := false, active := false,
    ariaPosinset := none, ariaSetsize := none }

def optPear : OptionEl :=
  { optApple with id := "opt-pear".data, choiceValue := "pear".data,
                  innerHTML := "pear".data }

/-- State right after construction (source lines 102-127: autocomplete is
    "both", matchMode is "all", the cached values are empty) in a typical
    freshly connected DOM, before any option children. -/
def baseState : ComboboxState :=
  { autocomplete := strBoth, matchMode := strAll, disabled := false,
    readOnly := false, multipleChoice := false, checkedIndex := -1,
    activeIndex := -1, opened := false, blockListShow := false,
    shouldAutocompleteNextUpdate := false, formElements := [],
    inputValue := [], selectionStart := 0, selectionEnd := 0,
    cboxInputValue := [], prevCboxValueNonSelected := [],
    listboxId := "listbox-1".data, labelId := "label-1".data,
    selectionDisplayPresent := false, selectionDisplayLinked := false,
    comboboxNodePresent := true, inputAriaAutocomplete := none,
    inputAriaControls := none, inputAriaLabelledby := none,
    inputAriaActivedescendant := none, hostAriaDisabled := none,
    comboboxRole := none, comboboxAriaHaspopup := none,
    comboboxAriaExpanded := none, comboboxAriaOwns := none,
    comboboxDisabledAttr := none, comboboxReadonlyAttr := none }

/-- The user typed "ap" on top of a previous "a": an adding-characters cycle. -/
def stC1 : ComboboxState :=
  { baseState with formElements := [optApple],
                   cboxInputValue := "ap".data,
                   prevCboxValueNonSelected := "a".data }

def stC3 : ComboboxState :=
  { baseState with matchMode := "begin".data, formElements := [optApple, optPear] }

def stC4 : ComboboxState := { baseState with formElements := [optApple] }

/-- Single choice and no option checked: checkedIndex is -1. -/
def stC5 : ComboboxState := { baseState with formElements := [optApple], checkedIndex := -1 }

def stC8 : ComboboxState :=
  { baseState with opened := true, inputValue := "ap".data, cboxInputValue := "ap".data }

/-- The state the Escape keydown handler produces from stC8. -/
def stC8b : ComboboxState :=
  { stC8 with opened := false, shouldAutocompleteNextUpdate := true,
              inputValue := [], cboxInputValue := [] }

def stC10 : ComboboxState := { baseState with autocomplete := strNone, formElements := [optApple] }

def tgtActive : OptionEl := { optApple with active := true }

/- ------------------------------------------------------------------ -/
/- Theorems.                                                           -/
/- ------------------------------------------------------------------ -/

theorem jsIndexOfNat_zero_iff (sub s : Str) :
    jsIndexOfNat sub s = some 0 ↔ isPrefixL sub s = true := by
  cases s with
  | nil => cases hp : isPrefixL sub [] <;> simp [jsIndexOfNat, hp]
  | cons c t =>
      cases hp : isPrefixL sub (c :: t) <;>
        simp [jsIndexOfNat, hp, Option.map_eq_some']

theorem jsIndexOfNat_isSome_eq (sub s : Str) :
    (jsIndexOfNat sub s).isSome = isSubstringL sub s := by
  induction s with
  | nil => cases hp : isPrefixL sub [] <;> simp [jsIndexOfNat, isSubstringL, hp]
  | cons c t ih =>
      cases hp : isPrefixL sub (c :: t) <;>
        simp [jsIndexOfNat, isSubstringL, hp, ← ih]

theorem jsIndexOf_zero_iff (s sub : Str) :
    jsIndexOf s sub = 0 ↔ isPrefixL sub s = true := by
  rw [← jsIndexOfNat_zero_iff]
  unfold jsIndexOf
  rcases h : jsIndexOfNat sub s with _ | n
  · simp
  · simp

theorem jsIndexOf_pos_iff (s sub : Str) :
    jsIndexOf s sub > -1 ↔ isSubstringL sub s = true := by
  rw [← jsIndexOfNat_isSome_eq]
  unfold jsIndexOf
  rcases h : jsIndexOfNat sub s with _ | n
  · simp
  · simp
    omega

theorem jsIndexOf_beq_zero (s sub : Str) :
    (jsIndexOf s sub == 0) = isPrefixL sub s := by
  cases h : isPrefixL sub s
  · have hne : ¬ jsIndexOf s sub = 0 := by
      rw [jsIndexOf_zero_iff, h]; simp
    simp [beq_iff_eq, hne]
  · have heq : jsIndexOf s sub = 0 := by rw [jsIndexOf_zero_iff]; exact h
    simp [beq_iff_eq, heq]

theorem onFilterUnmatch_choiceValue (o : OptionEl) :
    (_onFilterUnmatch o).choiceValue = o.choiceValue := by
  unfold _onFilterUnmatch
  rcases h : o.originalInnerHTML with _ | orig <;> simp only [h]
  all_goals first
    | rfl
    | (split <;> rfl)

theorem onFilterMatch_choiceValue (o : OptionEl) (m : Str) :
    (_onFilterMatch o m).choiceValue = o.choiceValue := rfl

theorem onFilterUnmatch_display (o : OptionEl) :
    (_onFilterUnmatch o).display = strDisplayNone := rfl

theorem onFilterUnmatch_disabled (o : OptionEl) :
    (_onFilterUnmatch o).disabled = true := rfl

theorem filterOptionCondition_eq_of_choiceValue (mm cur : Str) (o o' : OptionEl)
    (h : o.choiceValue = o'.choiceValue) :
    filterOptionCondition mm o cur = filterOptionCondition mm o' cur := by
  unfold filterOptionCondition; rw [h]

/-- acStep appends exactly the transformed option to processed and collects
    the index iff the option is visible. -/
theorem acStep_pv (ac mm cbox cur : Str) (uac : Bool) (acc : AcAcc) (idx : Nat)
    (o : OptionEl) :
    (acStep ac mm cbox cur uac acc idx o).processed = acc.processed ++ [preOpt mm cur o] ∧
    (acStep ac mm cbox cur uac acc idx o).visible
      = acc.visible ++ (if isVisibleOpt mm cur o then [idx] else []) := by
  by_cases hc : cur = []
  · simp [acStep, preOpt, isVisibleOpt, hc]
  · have hfc : filterOptionCondition mm
        { _onFilterUnmatch o with disabled := true, ariaPosinset := none,
                                  ariaSetsize := none } cur
        = filterOptionCondition mm o cur := by
      apply filterOptionCondition_eq_of_choiceValue
      exact onFilterUnmatch_choiceValue o
    cases hsh : filterOptionCondition mm o cur with
    | false => simp [acStep, preOpt, isVisibleOpt, hc, hfc, hsh]
    | true =>
        simp only [acStep, preOpt, isVisibleOpt, hc, if_neg hc, hfc, hsh,
          decide_False, Bool.false_or, if_true]
        refine ⟨?_, ?_⟩ <;> (repeat' split) <;> rfl

/-- Once hasAutoFilled is set, later iterations leave the textbox fields and
    the active index alone. -/
theorem acStep_fill_protected (ac mm cbox cur : Str) (uac : Bool) (acc : AcAcc)
    (idx : Nat) (o : OptionEl) (h : acc.hasAutoFilled = true) :
    (acStep ac mm cbox cur uac acc idx o).hasAutoFilled = true ∧
    (acStep ac mm cbox cur uac acc idx o).inputValue = acc.inputValue ∧
    (acStep ac mm cbox cur uac acc idx o).selectionStart = acc.selectionStart ∧
    (acStep ac mm cbox cur uac acc idx o).selectionEnd = acc.selectionEnd ∧
    (acStep ac mm cbox cur uac acc idx o).activeIndex = acc.activeIndex := by
  unfold acStep
  by_cases hc : cur = [] <;> simp [hc, h]

/-- An option that is not an autofill candidate never sets hasAutoFilled. -/
theorem acStep_no_fill (ac mm cbox cur : Str) (uac : Bool) (acc : AcAcc)
    (idx : Nat) (o : OptionEl) (hcur : ¬ cur = [])
    (hcand : acCandidate mm cur o = false) :
    (acStep ac mm cbox cur uac acc idx o).hasAutoFilled = acc.hasAutoFilled := by
  have hfc : filterOptionCondition mm
      { _onFilterUnmatch o with disabled := true, ariaPosinset := none,
                                ariaSetsize := none } cur
      = filterOptionCondition mm o cur := by
    apply filterOptionCondition_eq_of_choiceValue
    exact onFilterUnmatch_choiceValue o
  unfold acStep
  simp only [if_neg hcur, hfc]
  cases hsh : filterOptionCondition mm o cur with
  | false => simp
  | true =>
      have hbw : isPrefixL (toLowerL cur) (toLowerL o.choiceValue) = false := by
        cases hbw : isPrefixL (toLowerL cur) (toLowerL o.choiceValue)
        · rfl
        · exfalso
          rw [acCandidate, hsh, hbw] at hcand
          simp at hcand
      simp [hsh, onFilterMatch_choiceValue, onFilterUnmatch_choiceValue,
        jsIndexOf_beq_zero, hbw]

/-- The loop after a fill: the filled fields survive to the end. -/
theorem acLoop_fill_protected (ac mm cbox cur : Str) (uac : Bool) :
    ∀ (items : List (Nat × OptionEl)) (acc : AcAcc), acc.hasAutoFilled = true →
      (acLoop ac mm cbox cur uac acc items).hasAutoFilled = true ∧
      (acLoop ac mm cbox cur uac acc items).inputValue = acc.inputValue ∧
      (acLoop ac mm cbox cur uac acc items).selectionStart = acc.selectionStart ∧
      (acLoop ac mm cbox cur uac acc items).selectionEnd = acc.selectionEnd ∧
      (acLoop ac mm cbox cur uac acc items).activeIndex = acc.activeIndex := by
  intro items
  induction items with
  | nil => intro acc h; simp [acLoop, h]
  | cons p rest ih =>
      intro acc h
      rcases p with ⟨idx, o⟩
      obtain ⟨h1, h2, h3, h4, h5⟩ := acStep_fill_protected ac mm cbox cur uac acc idx o h
      obtain ⟨g1, g2, g3, g4, g5⟩ := ih (acStep ac mm cbox cur uac acc idx o) h1
      exact ⟨g1, g2.trans h2, g3.trans h3, g4.trans h4, g5.trans h5⟩

theorem visIdx_nil (mm cur : Str) (k : Nat) : visIdx mm cur k [] = [] := rfl

theorem visIdx_cons (mm cur : Str) (k : Nat) (o : OptionEl) (t : List OptionEl) :
    visIdx mm cur k (o :: t)
      = if isVisibleOpt mm cur o then k :: visIdx mm cur (k + 1) t
        else visIdx mm cur (k + 1) t := rfl

/-- The loop builds processed as the pointwise transformation of the input
    options and visible as the list of indices of the visible options. -/
theorem acLoop_pv (ac mm cbox cur : Str) (uac : Bool) :
    ∀ (l : List OptionEl) (k : Nat) (acc : AcAcc),
      (acLoop ac mm cbox cur uac acc (enumFromN k l)).processed
        = acc.processed ++ l.map (preOpt mm cur) ∧
      (acLoop ac mm cbox cur uac acc (enumFromN k l)).visible
        = acc.visible ++ visIdx mm cur k l := by
  intro l
  induction l with
  | nil => intro k acc; simp [enumFromN, acLoop, visIdx]
  | cons o t ih =>
      intro k acc
      obtain ⟨hp, hv⟩ := acStep_pv ac mm cbox cur uac acc k o
      obtain ⟨gp, gv⟩ := ih (k + 1) (acStep ac mm cbox cur uac acc k o)
      simp only [enumFromN, acLoop]
      constructor
      · rw [gp, hp]; simp
      · rw [gv, hv, visIdx_cons]
        cases hvis : isVisibleOpt mm cur o <;> simp [hvis]

/-- A step on an autofill candidate while nothing was filled yet performs the
    step-5 synchronization: textbox value, selection and active index. -/
theorem acStep_fills (ac mm cbox cur : Str) (uac : Bool) (acc : AcAcc)
    (idx : Nat) (o : OptionEl) (hcur : ¬ cur = []) (huac : uac = true)
    (haf : acc.hasAutoFilled = false) (hcand : acCandidate mm cur o = true) :
    (acStep ac mm cbox cur uac acc idx o).hasAutoFilled = true ∧
    (acStep ac mm cbox cur uac acc idx o).activeIndex = (idx : Int) ∧
    (ac = strBoth →
      (acStep ac mm cbox cur uac acc idx o).inputValue = o.choiceValue ∧
      (acStep ac mm cbox cur uac acc idx o).selectionStart = cbox.length ∧
      (acStep ac mm cbox cur uac acc idx o).selectionEnd = o.choiceValue.length) := by
  have hparts := Bool.and_eq_true_iff.mp (by rw [← acCandidate]; exact hcand)
  have hsh : filterOptionCondition mm o cur = true := hparts.1
  have hbw : isPrefixL (toLowerL cur) (toLowerL o.choiceValue) = true := hparts.2
  have hfc : filterOptionCondition mm
      { _onFilterUnmatch o with disabled := true, ariaPosinset := none,
                                ariaSetsize := none } cur
      = filterOptionCondition mm o cur := by
    apply filterOptionCondition_eq_of_choiceValue
    exact onFilterUnmatch_choiceValue o
  unfold acStep
  simp only [if_neg hcur, hfc, hsh, if_true, huac, haf]
  simp only [onFilterMatch_choiceValue, onFilterUnmatch_choiceValue,
    jsIndexOf_beq_zero, hbw]
  by_cases hb : ac = strBoth <;>
    simp [hb, onFilterMatch_choiceValue, onFilterUnmatch_choiceValue]

/-- If the first autofill candidate of the remaining options sits at relative
    position i, the loop fills the textbox from it and records its index. -/
theorem acLoop_fills (ac mm cbox cur : Str) (uac : Bool) (hcur : ¬ cur = [])
    (huac : uac = true) :
    ∀ (l : List OptionEl) (k : Nat) (acc : AcAcc) (i : Nat) (o : OptionEl),
      acc.hasAutoFilled = false →
      l.get? i = some o →
      acCandidate mm cur o = true →
      (∀ j o', j < i → l.get? j = some o' → acCandidate mm cur o' = false) →
      (acLoop ac mm cbox cur uac acc (enumFromN k l)).hasAutoFilled = true ∧
      (acLoop ac mm cbox cur uac acc (enumFromN k l)).activeIndex = ((k + i : Nat) : Int) ∧
      (ac = strBoth →
        (acLoop ac mm cbox cur uac acc (enumFromN k l)).inputValue = o.choiceValue ∧
        (acLoop ac mm cbox cur uac acc (enumFromN k l)).selectionStart = cbox.length ∧
        (acLoop ac mm cbox cur uac acc (enumFromN k l)).selectionEnd
          = o.choiceValue.length) := by
  intro l
  induction l with
  | nil => intro k acc i o haf hget hcand hfirst; simp at hget
  | cons o0 t ih =>
      intro k acc i o haf hget hcand hfirst
      cases i with
      | zero =>
          have ho : o0 = o := by simpa using hget
          subst ho
          obtain ⟨f1, f2, f3⟩ := acStep_fills ac mm cbox cur uac acc k o0 hcur huac haf hcand
          obtain ⟨g1, g2, g3, g4, g5⟩ := acLoop_fill_protected ac mm cbox cur uac
            (enumFromN (k + 1) t) (acStep ac mm cbox cur uac acc k o0) f1
          simp only [enumFromN, acLoop]
          refine ⟨g1, ?_, ?_⟩
          · rw [g5, f2]; norm_num
          · intro hb
            obtain ⟨a1, a2, a3⟩ := f3 hb
            exact ⟨g2.trans a1, g3.trans a2, g4.trans a3⟩
      | succ j =>
          have hstep : (acStep ac mm cbox cur uac acc k o0).hasAutoFilled = false := by
            rw [acStep_no_fill ac mm cbox cur uac acc k o0 hcur
              (hfirst 0 o0 (Nat.succ_pos j) rfl), haf]
          have hget' : t.get? j = some o := hget
          have hfirst' : ∀ j' o', j' < j → t.get? j' = some o' →
              acCandidate mm cur o' = false :=
            fun j' o' hj hg => hfirst (j' + 1) o' (Nat.succ_lt_succ hj) hg
          obtain ⟨g1, g2, g3⟩ := ih (k + 1) (acStep ac mm cbox cur uac acc k o0) j o
            hstep hget' hcand hfirst'
          simp only [enumFromN, acLoop]
          refine ⟨g1, ?_, g3⟩
          have hk : (k + 1) + j = k + (j + 1) := by omega
          rw [g2, hk]

/-- C1: in an autocompletion cycle with autocomplete "both", a non-empty
    typed value and the user adding characters, if the first option that both
    passes the visibility filter and whose choiceValue begins
    case-insensitively with the typed value sits at index i, then the textbox
    value becomes that full choiceValue, selectionStart the typed length,
    selectionEnd the completed length, the active index becomes i, and the
    completion source passes the visibility filter. -/
theorem C1_autofill_first_match (st : ComboboxState) (i : Nat) (o : OptionEl)
    (hac : st.autocomplete = strBoth)
    (hcur : st.cboxInputValue ≠ [])
    (hadd : st.prevCboxValueNonSelected.length < st.cboxInputValue.length)
    (hget : st.formElements.get? i = some o)
    (hcand : acCandidate st.matchMode st.cboxInputValue o = true)
    (hfirst : ∀ j o', j < i → st.formElements.get? j = some o' →
        acCandidate st.matchMode st.cboxInputValue o' = false) :
    (_handleAutocompletion st st.cboxInputValue st.prevCboxValueNonSelected).inputValue
        = o.choiceValue ∧
    (_handleAutocompletion st st.cboxInputValue st.prevCboxValueNonSelected).selectionStart
        = st.cboxInputValue.length ∧
    (_handleAutocompletion st st.cboxInputValue st.prevCboxValueNonSelected).selectionEnd
        = o.choiceValue.length ∧
    (_handleAutocompletion st st.cboxInputValue st.prevCboxValueNonSelected).activeIndex
        = (i : Int) ∧
    filterOptionCondition st.matchMode o st.cboxInputValue = true := by
  have hne : ¬ st.autocomplete = strNone := by rw [hac]; decide
  have huac : decide (st.prevCboxValueNonSelected.length < st.cboxInputValue.length)
      = true := decide_eq_true hadd
  obtain ⟨f1, f2, f3⟩ := acLoop_fills st.autocomplete st.matchMode st.cboxInputValue
    st.cboxInputValue
    (decide (st.prevCboxValueNonSelected.length < st.cboxInputValue.length))
    hcur huac st.formElements 0
    { processed := [], visible := [], hasAutoFilled := false,
      inputValue := st.inputValue, selectionStart := st.selectionStart,
      selectionEnd := st.selectionEnd, activeIndex := st.activeIndex }
    i o rfl hget hcand hfirst
  obtain ⟨a1, a2, a3⟩ := f3 hac
  simp only [_handleAutocompletion, if_neg hne]
  refine ⟨a1, a2, a3, ?_, ?_⟩
  · rw [f2]; norm_num
  · unfold acCandidate at hcand
    exact (Bool.and_eq_true_iff.mp hcand).1

/-- C1 witness: typing "ap" over a previous "a" against the single option
    "apple" completes the textbox to "apple" with selection 2..5 and active
    index 0, and "apple" passes the filter. -/
theorem C1_autofill_first_match_witness :
    (_handleAutocompletion stC1 stC1.cboxInputValue stC1.prevCboxValueNonSelected).inputValue
        = optApple.choiceValue ∧
    (_handleAutocompletion stC1 stC1.cboxInputValue stC1.prevCboxValueNonSelected).selectionStart
        = stC1.cboxInputValue.length ∧
    (_handleAutocompletion stC1 stC1.cboxInputValue stC1.prevCboxValueNonSelected).selectionEnd
        = optApple.choiceValue.length ∧
    (_handleAutocompletion stC1 stC1.cboxInputValue stC1.prevCboxValueNonSelected).activeIndex
        = ((0 : Nat) : Int) ∧
    filterOptionCondition stC1.matchMode optApple stC1.cboxInputValue = true :=
  C1_autofill_first_match stC1 0 optApple rfl (by decide) (by decide) rfl (by decide)
    (fun j o' hj hg => absurd hj (by omega))

/-- C2: for every option and current textbox value, filterOptionCondition
    returns true iff option.choiceValue contains curValue case-insensitively
    when matchMode is "all", and iff option.choiceValue begins with curValue
    case-insensitively for any other matchMode. -/
theorem C2_filterOptionCondition_spec (mm : Str) (o : OptionEl) (cur : Str) :
    filterOptionCondition mm o cur = true ↔
      (if mm = strAll
       then isSubstringL (toLowerL cur) (toLowerL o.choiceValue) = true
       else isPrefixL (toLowerL cur) (toLowerL o.choiceValue) = true) := by
  unfold filterOptionCondition filterCondStr
  by_cases hm : mm = strAll
  · simp [hm, jsIndexOf_pos_iff]
  · simp [hm, jsIndexOf_zero_iff]

theorem handleAutocompletion_inputAriaAutocomplete (st : ComboboxState) (cur prev : Str) :
    (_handleAutocompletion st cur prev).inputAriaAutocomplete
      = st.inputAriaAutocomplete := by
  unfold _handleAutocompletion
  split <;> rfl

theorem handleAutocompletion_hostAriaDisabled (st : ComboboxState) (cur prev : Str) :
    (_handleAutocompletion st cur prev).hostAriaDisabled = st.hostAriaDisabled := by
  unfold _handleAutocompletion
  split <;> rfl

/-- C5 evaluation: pressing Enter in single-choice mode with no option
    checked (checkedIndex -1) reads the value property of
    formElements[-1], which is undefined: the handler throws a TypeError
    instead of completing as the silent no-op the claim states. -/
theorem C5_enter_no_checked_throws :
    _listboxOnKeyDown stC5 strEnter = Except.error () := rfl

/-- C6: after an update cycle, a changed autocomplete property is mirrored
    onto aria-autocomplete of the input node, and a changed disabled
    property onto aria-disabled of the host, as the string form of the
    flag. -/
theorem C6_updated_mirrors_attributes (st : ComboboxState) (changed : List Str) :
    (strAutocompleteProp ∈ changed →
      (updated st changed).inputAriaAutocomplete = some st.autocomplete) ∧
    (strDisabledProp ∈ changed →
      (updated st changed).hostAriaDisabled = some (boolStr st.disabled)) := by
  constructor
  · intro h1
    simp [updated, h1, apply_ite ComboboxState.inputAriaAutocomplete,
      handleAutocompletion_inputAriaAutocomplete]
  · intro h2
    simp [updated, h2, apply_ite ComboboxState.hostAriaDisabled,
      apply_ite ComboboxState.disabled, handleAutocompletion_hostAriaDisabled]

/-- C6 witness: an update cycle in which both properties changed. -/
theorem C6_updated_mirrors_attributes_witness :
    (updated baseState [strAutocompleteProp, strDisabledProp]).inputAriaAutocomplete
      = some baseState.autocomplete ∧
    (updated baseState [strAutocompleteProp, strDisabledProp]).hostAriaDisabled
      = some (boolStr baseState.disabled) :=
  ⟨(C6_updated_mirrors_attributes baseState [strAutocompleteProp, strDisabledProp]).1
      (by decide),
   (C6_updated_mirrors_attributes baseState [strAutocompleteProp, strDisabledProp]).2
      (by decide)⟩

/-- C7: overlay setup gives the combobox node role combobox,
    aria-haspopup listbox, aria-expanded false and aria-owns the listbox id,
    and the input node aria-autocomplete, aria-controls the listbox id and
    aria-labelledby the label id; and a child option becoming active points
    aria-activedescendant of the input at that option. -/
theorem C7_setup_and_activedescendant (st : ComboboxState) (target : OptionEl)
    (hact : target.active = true) :
    (__setupCombobox st).comboboxRole = some strCombobox ∧
    (__setupCombobox st).comboboxAriaHaspopup = some strListbox ∧
    (__setupCombobox st).comboboxAriaExpanded = some strFalse ∧
    (__setupCombobox st).comboboxAriaOwns = some st.listboxId ∧
    (__setupCombobox st).inputAriaAutocomplete = some st.autocomplete ∧
    (__setupCombobox st).inputAriaControls = some st.listboxId ∧
    (__setupCombobox st).inputAriaLabelledby = some st.labelId ∧
    (_onChildActiveChanged st target).inputAriaActivedescendant = some target.id := by
  refine ⟨rfl, rfl, rfl, rfl, rfl, rfl, rfl, ?_⟩
  unfold _onChildActiveChanged
  simp [hact]

theorem C7_setup_and_activedescendant_witness :
    (__setupCombobox baseState).comboboxRole = some strCombobox ∧
    (__setupCombobox baseState).comboboxAriaHaspopup = some strListbox ∧
    (__setupCombobox baseState).comboboxAriaExpanded = some strFalse ∧
    (__setupCombobox baseState).comboboxAriaOwns = some baseState.listboxId ∧
    (__setupCombobox baseState).inputAriaAutocomplete = some baseState.autocomplete ∧
    (__setupCombobox baseState).inputAriaControls = some baseState.listboxId ∧
    (__setupCombobox baseState).inputAriaLabelledby = some baseState.labelId ∧
    (_onChildActiveChanged baseState tgtActive).inputAriaActivedescendant
      = some tgtActive.id :=
  C7_setup_and_activedescendant baseState tgtActive rfl

/-- C8 evaluation: the Escape keydown closes the listbox and clears both the
    textbox value and the cached input value, but the keyup handler of the
    same key press re-opens the listbox: __showOverlay guards only the
    legacy key name Esc while the keydown branch matches the standard name
    Escape. -/
theorem C8_escape_keyup_reopens :
    _listboxOnKeyDown stC8 strEscape = Except.ok stC8b ∧
    stC8b.opened = false ∧
    stC8b.inputValue = [] ∧
    stC8b.cboxInputValue = [] ∧
    (__showOverlay stC8b strEscape).opened = true :=
  ⟨rfl, rfl, rfl, rfl, rfl⟩

/-- C9 counterexample: the widget itself registers a keyup handler
    (__showOverlay on the overlay invoker node, source line 450), so it is
    not the case that no handler for an event type other than input, keydown
    and click is registered. -/
theorem C9_keyup_listener_registered :
    strKeyup ∈ registeredEventTypes ∧
    ¬ strKeyup ∈ [strInput, strKeydown, strClick] := by decide

/-- C9 amended: the event types this class registers handlers for are
    exactly keydown and input (on the input node, opening the autocompletion
    cycle) and keyup (on the overlay invoker, opening the overlay). -/
theorem C9_registered_event_types :
    registeredEventTypes = [strKeydown, strInput, strKeyup] := rfl

theorem listModify_get (f : OptionEl → OptionEl) :
    ∀ (l : List OptionEl) (i j : Nat),
      (listModify l i f).get? j = if j = i then (l.get? j).map f else l.get? j := by
  intro l
  induction l with
  | nil => intro i j; simp [listModify]
  | cons a t ih =>
      intro i j
      cases i with
      | zero =>
          cases j with
          | zero => simp [listModify]
          | succ j1 => simp [listModify]
      | succ i1 =>
          cases j with
          | zero => simp [listModify]
          | succ j1 =>
              simp only [listModify, List.get?_cons_succ]
              rw [ih i1 j1]
              by_cases h : j1 = i1 <;> simp [h]

theorem applyVisible_get_notmem (n : Nat) :
    ∀ (pairs : List (Nat × Nat)) (opts : List OptionEl) (i : Nat),
      (∀ p ∈ pairs, ¬ p.2 = i) →
      (applyVisible n opts pairs).get? i = opts.get? i := by
  intro pairs
  induction pairs with
  | nil => intro opts i h; rfl
  | cons p rest ih =>
      intro opts i h
      rcases p with ⟨r, idx⟩
      have hni : ¬ idx = i := h (r, idx) (List.mem_cons_self _ _)
      simp only [applyVisible]
      rw [ih _ i (fun q hq => h q (List.mem_cons_of_mem _ hq))]
      rw [listModify_get]
      rw [if_neg (fun he => hni he.symm)]

theorem applyVisible_get_mem (n : Nat) :
    ∀ (pairs : List (Nat × Nat)) (opts : List OptionEl) (r i : Nat),
      (pairs.map (fun p => p.2)).Nodup → (r, i) ∈ pairs →
      (applyVisible n opts pairs).get? i = (opts.get? i).map (markVisible n r) := by
  intro pairs
  induction pairs with
  | nil => intro opts r i hnd hmem; simp at hmem
  | cons p rest ih =>
      intro opts r i hnd hmem
      rcases p with ⟨r0, i0⟩
      rw [List.map_cons] at hnd
      obtain ⟨hhead, htail⟩ := List.nodup_cons.mp hnd
      rcases List.mem_cons.mp hmem with heq | hmem1
      · simp only [Prod.mk.injEq] at heq
        obtain ⟨hr, hi⟩ := heq
        subst hr; subst hi
        simp only [applyVisible]
        have hrest : ∀ q ∈ rest, ¬ q.2 = i := by
          intro q hq hqe
          exact hhead (List.mem_map.mpr ⟨q, hq, hqe⟩)
        rw [applyVisible_get_notmem n rest _ i hrest, listModify_get]
        simp
      · have hne : ¬ i0 = i := by
          intro he
          subst he
          exact hhead (List.mem_map.mpr ⟨(r, i0), hmem1, rfl⟩)
        simp only [applyVisible]
        rw [ih _ r i htail hmem1]
        rw [listModify_get]
        rw [if_neg (fun he => hne he.symm)]

theorem enumFromN_map_snd {α : Type} : ∀ (v : List α) (k : Nat),
    (enumFromN k v).map (fun p => p.2) = v := by
  intro v
  induction v with
  | nil => intro k; rfl
  | cons a t ih => intro k; simp [enumFromN, ih]

theorem enumFromN_mem_of_get {α : Type} : ∀ (v : List α) (k j : Nat) (x : α),
    v.get? j = some x → (k + j, x) ∈ enumFromN k v := by
  intro v
  induction v with
  | nil => intro k j x h; simp at h
  | cons a t ih =>
      intro k j x h
      cases j with
      | zero =>
          have ha : a = x := by simpa using h
          subst ha
          simp [enumFromN]
      | succ j1 =>
          have hmem := ih (k + 1) j1 x h
          have hk : k + (j1 + 1) = (k + 1) + j1 := by omega
          rw [hk]
          exact List.mem_cons_of_mem _ hmem

theorem visIdx_ge (mm cur : Str) : ∀ (l : List OptionEl) (k x : Nat),
    x ∈ visIdx mm cur k l → k ≤ x := by
  intro l
  induction l with
  | nil => intro k x h; simp [visIdx_nil] at h
  | cons o t ih =>
      intro k x h
      rw [visIdx_cons] at h
      by_cases hv : isVisibleOpt mm cur o = true
      · rw [if_pos hv] at h
        rcases List.mem_cons.mp h with he | ht
        · omega
        · have := ih (k + 1) x ht; omega
      · rw [if_neg hv] at h
        have := ih (k + 1) x h; omega

theorem visIdx_nodup (mm cur : Str) : ∀ (l : List OptionEl) (k : Nat),
    (visIdx mm cur k l).Nodup := by
  intro l
  induction l with
  | nil => intro k; simp [visIdx_nil]
  | cons o t ih =>
      intro k
      rw [visIdx_cons]
      split
      · rw [List.nodup_cons]
        refine ⟨?_, ih (k + 1)⟩
        intro hmem
        have := visIdx_ge mm cur t (k + 1) k hmem
        omega
      · exact ih (k + 1)

theorem visIdx_length (mm cur : Str) : ∀ (l : List OptionEl) (k : Nat),
    (visIdx mm cur k l).length = l.countP (isVisibleOpt mm cur) := by
  intro l
  induction l with
  | nil => intro k; simp [visIdx_nil]
  | cons o t ih =>
      intro k
      cases hv : isVisibleOpt mm cur o <;>
        simp [visIdx_cons, List.countP_cons, hv, ih (k + 1)]

theorem visIdx_get_rank (mm cur : Str) : ∀ (l : List OptionEl) (k i : Nat) (o : OptionEl),
    l.get? i = some o → isVisibleOpt mm cur o = true →
    (visIdx mm cur k l).get? ((l.take i).countP (isVisibleOpt mm cur)) = some (k + i) := by
  intro l
  induction l with
  | nil => intro k i o h _; simp at h
  | cons o0 t ih =>
      intro k i o hget hvis
      cases i with
      | zero =>
          have ho : o0 = o := by simpa using hget
          subst ho
          simp [visIdx_cons, hvis]
      | succ j =>
          have hrec := ih (k + 1) j o hget hvis
          have hk : k + (j + 1) = (k + 1) + j := by omega
          rw [hk]
          cases hv0 : isVisibleOpt mm cur o0 <;>
            simpa [visIdx_cons, hv0, List.take_succ_cons, List.countP_cons] using hrec

theorem visIdx_not_mem (mm cur : Str) : ∀ (l : List OptionEl) (k i : Nat) (o : OptionEl),
    l.get? i = some o → isVisibleOpt mm cur o = false →
    ¬ (k + i) ∈ visIdx mm cur k l := by
  intro l
  induction l with
  | nil => intro k i o h _ _; simp at h
  | cons o0 t ih =>
      intro k i o hget hvis
      cases i with
      | zero =>
          have ho : o0 = o := by simpa using hget
          subst ho
          rw [visIdx_cons, if_neg (by simp [hvis])]
          intro hmem
          have := visIdx_ge mm cur t (k + 1) (k + 0) hmem
          omega
      | succ j =>
          intro hmem
          rw [visIdx_cons] at hmem
          have hker : ¬ (k + (j + 1)) ∈ visIdx mm cur (k + 1) t := by
            have hh := ih (k + 1) j o hget hvis
            have hk : (k + 1) + j = k + (j + 1) := by omega
            rw [hk] at hh; exact hh
          cases hsplit : isVisibleOpt mm cur o0 with
          | true =>
              rw [if_pos hsplit] at hmem
              rcases List.mem_cons.mp hmem with he | ht
              · omega
              · exact hker ht
          | false =>
              rw [if_neg (by simp [hsplit])] at hmem
              exact hker hmem

theorem preOpt_disabled_of_unmatch (mm cur : Str) (o : OptionEl)
    (hcur : ¬ cur = []) (hfil : filterOptionCondition mm o cur = false) :
    (preOpt mm cur o).disabled = true := by
  have hfc : filterOptionCondition mm
      { _onFilterUnmatch o with disabled := true, ariaPosinset := none,
                                ariaSetsize := none } cur
      = filterOptionCondition mm o cur := by
    apply filterOptionCondition_eq_of_choiceValue
    exact onFilterUnmatch_choiceValue o
  unfold preOpt
  rw [if_neg hcur]
  rw [if_neg (by rw [hfc, hfil]; simp)]

/-- C3: after a run of _handleAutocompletion with autocomplete not "none",
    the option at index i, when visible, carries aria-posinset equal to its
    1-based rank in the visible set and aria-setsize equal to the visible
    count and is enabled; when the non-empty input does not match it, it is
    left disabled. -/
theorem C3_visible_aria_and_disabled (st : ComboboxState) (cur prev : Str)
    (i : Nat) (o : OptionEl)
    (hac : ¬ st.autocomplete = strNone)
    (hget : st.formElements.get? i = some o) :
    (isVisibleOpt st.matchMode cur o = true →
      fieldPosinset ((_handleAutocompletion st cur prev).formElements.get? i)
        = some (some (natStr (visRank st.matchMode cur st.formElements i + 1))) ∧
      fieldSetsize ((_handleAutocompletion st cur prev).formElements.get? i)
        = some (some (natStr (visCount st.matchMode cur st.formElements))) ∧
      fieldDisabled ((_handleAutocompletion st cur prev).formElements.get? i)
        = some false) ∧
    (¬ cur = [] → filterOptionCondition st.matchMode o cur = false →
      fieldDisabled ((_handleAutocompletion st cur prev).formElements.get? i)
        = some true) := by
  obtain ⟨hp, hv⟩ := acLoop_pv st.autocomplete st.matchMode st.cboxInputValue cur
    (decide (prev.length < cur.length)) st.formElements 0
    { processed := [], visible := [], hasAutoFilled := false,
      inputValue := st.inputValue, selectionStart := st.selectionStart,
      selectionEnd := st.selectionEnd, activeIndex := st.activeIndex }
  have hfe : (_handleAutocompletion st cur prev).formElements
      = applyVisible ((visIdx st.matchMode cur 0 st.formElements).length)
          (st.formElements.map (preOpt st.matchMode cur))
          (enumFromN 0 (visIdx st.matchMode cur 0 st.formElements)) := by
    simp only [_handleAutocompletion, if_neg hac]
    rw [hp, hv]
    simp
  have hproc : (st.formElements.map (preOpt st.matchMode cur)).get? i
      = some (preOpt st.matchMode cur o) := by
    rw [List.get?_map, hget]; rfl
  constructor
  · intro hvis
    have hrank := visIdx_get_rank st.matchMode cur st.formElements 0 i o hget hvis
    rw [Nat.zero_add] at hrank
    have hmem := enumFromN_mem_of_get (visIdx st.matchMode cur 0 st.formElements) 0
      ((st.formElements.take i).countP (isVisibleOpt st.matchMode cur)) i hrank
    rw [Nat.zero_add] at hmem
    have hnd : ((enumFromN 0 (visIdx st.matchMode cur 0 st.formElements)).map
        (fun p => p.2)).Nodup := by
      rw [enumFromN_map_snd]
      exact visIdx_nodup st.matchMode cur st.formElements 0
    have happ := applyVisible_get_mem
      ((visIdx st.matchMode cur 0 st.formElements).length)
      (enumFromN 0 (visIdx st.matchMode cur 0 st.formElements))
      (st.formElements.map (preOpt st.matchMode cur))
      ((st.formElements.take i).countP (isVisibleOpt st.matchMode cur)) i hnd hmem
    rw [hfe, happ, hproc]
    rw [visIdx_length st.matchMode cur st.formElements 0]
    exact ⟨rfl, rfl, rfl⟩
  · intro hcur hfil
    have hvisf : isVisibleOpt st.matchMode cur o = false := by
      simp [isVisibleOpt, hcur, hfil]
    have hnm := visIdx_not_mem st.matchMode cur st.formElements 0 i o hget hvisf
    rw [Nat.zero_add] at hnm
    have hforall : ∀ p ∈ enumFromN 0 (visIdx st.matchMode cur 0 st.formElements),
        ¬ p.2 = i := by
      intro p hpm hpe
      have hp2 : p.2 ∈ (enumFromN 0 (visIdx st.matchMode cur 0 st.formElements)).map
          (fun q => q.2) := List.mem_map_of_mem _ hpm
      rw [enumFromN_map_snd, hpe] at hp2
      exact hnm hp2
    rw [hfe, applyVisible_get_notmem _ _ _ i hforall, hproc]
    have hd := preOpt_disabled_of_unmatch st.matchMode cur o hcur hfil
    simp [fieldDisabled, hd]

/-- C3 witness: typing "a" with matchMode "begin" against options "apple" and
    "pear": "apple" is visible with posinset 1 of setsize 1 and enabled,
    "pear" is left disabled. -/
theorem C3_visible_aria_and_disabled_witness :
    (fieldPosinset ((_handleAutocompletion stC3 ("a".data) []).formElements.get? 0)
        = some (some (natStr (visRank stC3.matchMode ("a".data) stC3.formElements 0 + 1))) ∧
     fieldSetsize ((_handleAutocompletion stC3 ("a".data) []).formElements.get? 0)
        = some (some (natStr (visCount stC3.matchMode ("a".data) stC3.formElements))) ∧
     fieldDisabled ((_handleAutocompletion stC3 ("a".data) []).formElements.get? 0)
        = some false) ∧
    fieldDisabled ((_handleAutocompletion stC3 ("a".data) []).formElements.get? 1)
      = some true :=
  ⟨(C3_visible_aria_and_disabled stC3 ("a".data) [] 0 optApple (by decide) rfl).1
      (by decide),
   (C3_visible_aria_and_disabled stC3 ("a".data) [] 1 optPear (by decide) rfl).2
      (by decide) (by decide)⟩

/-- C4 evaluation: with an empty typed value every option is collected as
    visible — posinset 1 of setsize 1, enabled — yet step 1 of the loop has
    set style.display to none and nothing resets it, so the option ends the
    cycle hidden, against the claim. -/
theorem C4_empty_input_leaves_option_hidden :
    fieldDisplay ((_handleAutocompletion stC4 [] []).formElements.get? 0)
      = some strDisplayNone ∧
    fieldDisabled ((_handleAutocompletion stC4 [] []).formElements.get? 0) = some false ∧
    fieldPosinset ((_handleAutocompletion stC4 [] []).formElements.get? 0)
      = some (some (natStr 1)) ∧
    fieldSetsize ((_handleAutocompletion stC4 [] []).formElements.get? 0)
      = some (some (natStr 1)) := by decide

/-- C10: with autocomplete "none", _handleAutocompletion returns immediately
    and the whole state — every option's disabled, display, innerHTML and
    aria attributes, the textbox value and selection, the active index and
    the cached previous value — is unchanged. -/
theorem C10_autocomplete_none_noop (st : ComboboxState) (cur prev : Str)
    (h : st.autocomplete = strNone) :
    _handleAutocompletion st cur prev = st := by
  unfold _handleAutocompletion
  simp [h]

theorem C10_autocomplete_none_noop_witness :
    _handleAutocompletion stC10 ("a".data) [] = stC10 :=
  C10_autocomplete_none_noop stC10 ("a".data) [] rfl

end Lion
